import Mathlib

/-
Verification of find_speaker_gender_counts.py (EdwardBetts/fosdem-speakers).

The script is embedded shallowly:

* Python strings are Lean String values; the string operations the script
  uses (substring containment of a space, startswith, slicing off a
  constant-length first part, lexicographic comparison) are implemented over
  String.toList so that they evaluate by kernel reduction.
* The regular expressions re_he and re_she match a whole word from a fixed
  alternation, case-insensitively, at a word boundary; word characters are
  modelled as ASCII alphanumerics and the underscore (the ASCII core of
  the regex word-character class), and re.search is modelled by a Boolean
  "some position matches" scan, which is all the script uses of the match.
* The two opaque third-party components, gender_guesser (d.get_gender) and
  nameparser (HumanName(name).first), are oracle parameters of type
  String to String.
* File reading, HTML parsing and the network are factored out: functions
  that in Python read a saved page receive the already-parsed data (the
  biography string, the per-line track-link match results, the per-year
  track/gender pairs), and the download-with-local-cache pattern is an
  explicit state-passing function ensure_cached over a cache plus a log of
  network downloads.
* Python float division in get_ratio is modelled as exact division in ℚ,
  and the ZeroDivisionError raised on a zero denominator as an Except
  error value; the script installs no exception handler, so an error value
  models an uncaught exception aborting the run.
-/

namespace Fosdem

/-- Word character for the word-boundary assertions of re_he and re_she:
ASCII letters, digits and underscore. -/
def isWordChar (c : Char) : Bool := c.isAlphanum || c = '_'

/-- Case-insensitively match the token tok (given in lowercase) at the start
of cs, requiring a word boundary right after the token: the token is
consumed character by character and the first character left over, if any,
must not be a word character. -/
def matchTok : List Char → List Char → Bool
  | cs, [] => match cs with | [] => true | c :: _ => !isWordChar c
  | [], _ :: _ => false
  | c :: cs, t :: ts => (c.toLower = t) && matchTok cs ts

/-- Match tok at the current position: a word boundary before (the previous
character, when there is one, is not a word character) and matchTok. -/
def tokenAt (prev : Option Char) (cs : List Char) (tok : List Char) : Bool :=
  (match prev with | none => true | some c => !isWordChar c) && matchTok cs tok

/-- Scan of re.search: does any position of the text start a whole-word,
case-insensitive occurrence of one of the tokens? -/
def hasWordMatchAux (toks : List (List Char)) : Option Char → List Char → Bool
  | _, [] => false
  | prev, c :: cs =>
    (toks.any (fun t => tokenAt prev (c :: cs) t)) || hasWordMatchAux toks (some c) cs

/-- Tokens of re_he, the regex matching the whole words he and him. -/
def heToks : List (List Char) := ["he".toList, "him".toList]

/-- Tokens of re_she, the regex matching the whole words she and her. -/
def sheToks : List (List Char) := ["she".toList, "her".toList]

/-- re_he.search(text) as a Boolean: the script only tests the result for
truthiness, never its count or position. -/
def re_he_search (text : String) : Bool := hasWordMatchAux heToks none text.toList

/-- re_she.search(text) as a Boolean. -/
def re_she_search (text : String) : Bool := hasWordMatchAux sheToks none text.toList

/-- guess_gender_from_bio: None on the empty biography; "male" when re_he
matches and re_she does not; "female" in the symmetric case; None when both
or neither match. -/
def guess_gender_from_bio (bio : String) : Option String :=
  if bio = "" then none
  else
    let m_he := re_he_search bio
    let m_she := re_she_search bio
    if m_he && !m_she then some "male"
    else if m_she && !m_he then some "female"
    else none

/-- Substring containment of a single space, the Python test used by
get_first_name: a one-character substring occurs iff the character does. -/
def containsChar (s : String) (c : Char) : Bool := s.toList.any (· = c)

/-- get_first_name: when the name contains a space, delegate to the opaque
nameparser oracle human_first (HumanName(name).first); otherwise the whole
string is the first name. -/
def get_first_name (human_first : String → String) (name : String) : String :=
  if containsChar name ' ' then human_first name else name

/-- Python str.startswith over the code points of the strings. -/
def startsWithStr (s p : String) : Bool := p.toList.isPrefixOf s.toList

/-- Python slicing gender[len("mostly_"):], dropping the leading 7 code
points. -/
def dropStr (s : String) (n : Nat) : String := String.mk (s.toList.drop n)

/-- The normalization step of get_speaker_gender: strip a leading mostly_
from the raw gender_guesser label, then map andy to unknown. -/
def normalize_gender (gender : String) : String :=
  let gender := if startsWithStr gender "mostly_" then dropStr gender 7 else gender
  if gender = "andy" then "unknown" else gender

/-- The raw label vocabulary of the gender_guesser detector, per its
documentation: get_gender returns one of these six strings. -/
def rawVocab : List String :=
  ["unknown", "andy", "male", "female", "mostly_male", "mostly_female"]

/-- get_speaker_gender, instrumented: given the nameparser oracle, the
gender_guesser oracle, the parsed biography and the display name, return
the resolved gender together with the list of queries made to the
gender_guesser oracle. The Python code returns the biography verdict when
it is truthy, and otherwise queries d.get_gender on the extracted first
name and normalizes the answer. -/
def get_speaker_gender_calls (human_first get_gender : String → String)
    (bio name : String) : String × List String :=
  match guess_gender_from_bio bio with
  | some g => (g, [])
  | none =>
    let q := get_first_name human_first name
    (normalize_gender (get_gender q), [q])

/-- get_speaker_gender: the resolved gender alone. -/
def get_speaker_gender (human_first get_gender : String → String)
    (bio name : String) : String :=
  (get_speaker_gender_calls human_first get_gender bio name).1

/-- counts.get(key, 0) on the counts dictionary, modelled as an association
list. -/
def getCount (counts : List (String × Nat)) (k : String) : Nat :=
  match counts.find? (fun p => p.1 = k) with
  | some p => p.2
  | none => 0

/-- get_ratio: female / (male + female) with absent keys read as 0; Python
raises ZeroDivisionError when the denominator is zero, modelled as an
Except error; the script has no handler for it. -/
def get_ratio (counts : List (String × Nat)) : Except String ℚ :=
  let male := getCount counts "male"
  let female := getCount counts "female"
  if male + female = 0 then Except.error "ZeroDivisionError"
  else Except.ok ((female : ℚ) / ((male : ℚ) + (female : ℚ)))

/-- One loop step of get_speaker_tracks. A line of the saved speaker page is
represented by the result of matching it against the track-link regex:
none when the line does not match, some (track, track_name) with the two
captured groups when it does. A matching line is skipped when its track key
is the literal test or starts with bofs_; a key starting with main_track
has its display name replaced by Main track; the name is added to the set. -/
def addTrackLine (tracks : Finset String) (l : Option (String × String)) : Finset String :=
  match l with
  | none => tracks
  | some (track, track_name) =>
    if track = "test" || startsWithStr track "bofs_" then tracks
    else insert (if startsWithStr track "main_track" then "Main track" else track_name) tracks

/-- get_speaker_tracks: fold addTrackLine over the per-line match results of
the saved speaker page, starting from the empty set. -/
def get_speaker_tracks (lines : List (Option (String × String))) : Finset String :=
  lines.foldl addTrackLine ∅

/-- Counter[key] += 1 on an association list, preserving Python dict
insertion order: a new key is appended at the end. -/
def bump : List (String × Nat) → String → List (String × Nat)
  | [], k => [(k, 1)]
  | (k2, v) :: rest, k =>
    if k2 = k then (k2, v + 1) :: rest else (k2, v) :: bump rest k

/-- count[track][gender] += 1 on the defaultdict of Counters, again with
dict insertion order. -/
def bumpTrack : List (String × List (String × Nat)) → String → String →
    List (String × List (String × Nat))
  | [], t, g => [(t, [(g, 1)])]
  | (t2, c) :: rest, t, g =>
    if t2 = t then (t2, bump c g) :: rest else (t2, c) :: bumpTrack rest t g

/-- The counting loop of show_gender_diversity_by_track over the
(track, gender) pairs it iterates. -/
def tallyTracks (pairs : List (String × String)) : List (String × List (String × Nat)) :=
  pairs.foldl (fun acc p => bumpTrack acc p.1 p.2) []

/-- Python string comparison: lexicographic on code points. -/
def listLtChar : List Char → List Char → Bool
  | [], [] => false
  | [], _ :: _ => true
  | _ :: _, [] => false
  | a :: as, b :: bs => a.toNat < b.toNat || (a = b && listLtChar as bs)

/-- Python tuple comparison on a (ratio, track) pair: lexicographic. -/
def pairLt (a b : ℚ × String) : Bool :=
  if a.1 < b.1 then true
  else if a.1 = b.1 then listLtChar a.2.toList b.2.toList
  else false

/-- Insertion step for tracks.sort(reverse=True): keep the list in
descending tuple order. -/
def insDesc (x : ℚ × String) : List (ℚ × String) → List (ℚ × String)
  | [] => [x]
  | y :: ys => if pairLt x y then y :: insDesc x ys else x :: y :: ys

/-- tracks.sort(reverse=True) as an insertion sort by descending
(ratio, track) tuples. -/
def sortDesc (rows : List (ℚ × String)) : List (ℚ × String) :=
  rows.foldl (fun acc x => insDesc x acc) []

/-- The (get_ratio(counts), track) list built by show_gender_diversity_by_track;
a ZeroDivisionError inside any get_ratio call propagates out. -/
def ratioRows (tallies : List (String × List (String × Nat))) :
    Except String (List (ℚ × String)) :=
  tallies.mapM (fun p => (get_ratio p.2).map (fun r => (r, p.1)))

/-- show_gender_diversity_by_track, parameterized by the per-year
(track, gender) pair lists tg (the output of get_tracks_and_gender for each
year, which in Python is read from the saved pages of that year). The
Python function takes the year argument but calls get_tracks_and_gender
with the constant 2023, so the rows it builds, ranks and prints come from
tg 2023 whatever the year argument is. -/
def show_gender_diversity_by_track (tg : Nat → List (String × String))
    (year : Nat) : Except String (List (ℚ × String)) := do
  let rows ← ratioRows (tallyTracks (tg 2023))
  pure (sortDesc rows)

/-- State of the download cache: the saved local files (path to content)
and a log of the network downloads performed, in order. -/
structure FetchState where
  cache : List (String × String)
  downloads : List String
deriving DecidableEq

/-- os.path.exists plus reading the saved file: the content stored for a
path, when the file exists. -/
def lookupCache (st : FetchState) (k : String) : Option String :=
  (st.cache.find? (fun p => p.1 = k)).map (fun p => p.2)

/-- The download-with-local-cache pattern shared by get_speaker_pages (one
speaker page per slug) and process_year (the yearly speakers.html): when
the local file exists, return it with no network activity and no state
change; otherwise perform one network fetch, save the content under the
path, and return it. -/
def ensure_cached (fetch : String → String) (st : FetchState) (k : String) :
    FetchState × String :=
  match lookupCache st k with
  | some c => (st, c)
  | none =>
    let content := fetch k
    (⟨(k, content) :: st.cache, st.downloads ++ [k]⟩, content)

/-- C2: guess_gender_from_bio returns male exactly when the text has a
whole-word, case-insensitive occurrence of he or him and none of she or
her; female in the symmetric case; and none exactly when both pattern sets
match or neither does (the empty text falling in the neither case). Only
presence of a match matters, never its count or position, because the
script only tests re.search for truthiness. -/
theorem c2_pronoun_classifier (bio : String) :
    (guess_gender_from_bio bio = some "male" ↔
      (re_he_search bio = true ∧ re_she_search bio = false)) ∧
    (guess_gender_from_bio bio = some "female" ↔
      (re_she_search bio = true ∧ re_he_search bio = false)) ∧
    (guess_gender_from_bio bio = none ↔ re_he_search bio = re_she_search bio) := by
  by_cases hb : bio = ""
  · subst hb
    have h1 : re_he_search "" = false := rfl
    have h2 : re_she_search "" = false := rfl
    simp [guess_gender_from_bio, h1, h2]
  · cases hhe : re_he_search bio <;> cases hshe : re_she_search bio <;>
      simp [guess_gender_from_bio, hb, hhe, hshe]

/-- C3: the normalization in get_speaker_gender is total onto
\x7bmale, female, unknown\x7d over the raw gender_guesser vocabulary:
mostly_male and mostly_female collapse to male and female, andy (the
androgynous label) collapses to unknown, and unknown passes through. -/
theorem c3_normalization_total :
    (∀ g, g ∈ rawVocab →
      normalize_gender g ∈ (["male", "female", "unknown"] : List String)) ∧
    normalize_gender "mostly_male" = "male" ∧
    normalize_gender "mostly_female" = "female" ∧
    normalize_gender "andy" = "unknown" ∧
    normalize_gender "unknown" = "unknown" := by
  refine ⟨?_, by decide, by decide, by decide, by decide⟩
  intro g hg
  fin_cases hg <;> decide

/-- Witness for C3 at the concrete raw label mostly_female. -/
theorem c3_witness :
    normalize_gender "mostly_female" ∈ (["male", "female", "unknown"] : List String) :=
  c3_normalization_total.1 "mostly_female" (by decide)

/-- C1: the gender resolver first applies the pronoun classifier to the
biography; a male or female verdict is returned as is with no query to the
name classifier (the query log is empty), and otherwise the resolver
returns the normalized name-classifier result on the extracted first name
of the display name. -/
theorem c1_resolver_precedence (human_first get_gender : String → String)
    (bio name : String) :
    (∀ g, guess_gender_from_bio bio = some g →
      get_speaker_gender_calls human_first get_gender bio name = (g, [])) ∧
    (guess_gender_from_bio bio = none →
      get_speaker_gender_calls human_first get_gender bio name =
        (normalize_gender (get_gender (get_first_name human_first name)),
          [get_first_name human_first name])) := by
  constructor
  · intro g hg
    simp [get_speaker_gender_calls, hg]
  · intro hg
    simp [get_speaker_gender_calls, hg]

/-- Witness for C1: a biography containing she (and no he or him) together
with a name classifier that always answers male still resolves to female,
and the name classifier is never queried. -/
theorem c1_witness :
    guess_gender_from_bio "She writes compilers" = some "female" ∧
    get_speaker_gender_calls (fun s => s) (fun _ => "male")
      "She writes compilers" "John Smith" = ("female", []) := by
  have h : guess_gender_from_bio "She writes compilers" = some "female" := rfl
  exact ⟨h, (c1_resolver_precedence (fun s => s) (fun _ => "male")
    "She writes compilers" "John Smith").1 "female" h⟩

/-- C9: a name without a space is returned unchanged by get_first_name,
whatever the nameparser oracle does. -/
theorem c9_no_space_identity (human_first : String → String) (name : String)
    (h : containsChar name ' ' = false) :
    get_first_name human_first name = name := by
  simp [get_first_name, h]

/-- Witness for C9 at a single-token name and an oracle that would mangle
it if consulted. -/
theorem c9_witness :
    containsChar "Madonna" ' ' = false ∧
    get_first_name (fun _ => "mangled") "Madonna" = "Madonna" :=
  ⟨rfl, c9_no_space_identity (fun _ => "mangled") "Madonna" rfl⟩

/-- C6: when at least one speaker is counted male or female, get_ratio is
female / (male + female), with absent keys read as zero and the unknown
count playing no part in the denominator. -/
theorem c6_ratio_formula (counts : List (String × Nat))
    (h : ¬(getCount counts "male" + getCount counts "female" = 0)) :
    get_ratio counts =
      Except.ok (((getCount counts "female" : ℚ)) /
        ((getCount counts "male" : ℚ) + (getCount counts "female" : ℚ))) := by
  simp [get_ratio, h]

/-- Witness for C6: the counts male 1, female 1, unknown 2 give ratio 1/2,
not the 1/4 that counting unknown in the denominator would give. -/
theorem c6_witness :
    get_ratio [("male", 1), ("female", 1), ("unknown", 2)] = Except.ok ((1 : ℚ) / 2) ∧
    ((1 : ℚ) / 2) ≠ ((1 : ℚ) / 4) := by
  constructor
  · have h := c6_ratio_formula [("male", 1), ("female", 1), ("unknown", 2)] (by decide)
    rw [h]
    simp only [show getCount [("male", 1), ("female", 1), ("unknown", 2)] "female" = 1 from rfl,
      show getCount [("male", 1), ("female", 1), ("unknown", 2)] "male" = 1 from rfl]
    norm_num
  · norm_num

/-- C10: when both the male and the female counts are zero or absent,
get_ratio divides by zero, which in Python raises ZeroDivisionError; the
script installs no handler, so the run aborts. -/
theorem c10_zero_denominator (counts : List (String × Nat))
    (hm : getCount counts "male" = 0) (hf : getCount counts "female" = 0) :
    get_ratio counts = Except.error "ZeroDivisionError" := by
  simp [get_ratio, hm, hf]

/-- Witness for C10: a year whose speakers are all classified unknown. -/
theorem c10_witness :
    get_ratio [("unknown", 2)] = Except.error "ZeroDivisionError" :=
  c10_zero_denominator [("unknown", 2)] rfl rfl

/-- Counterexample for C7 as stated: with an empty display name the first
name extracted is the empty string, and the gender resolver still queries
the name classifier, with the empty string as the argument — the query log
of the call is [""], not []. -/
theorem c7_counterexample :
    get_first_name (fun s => s) "" = "" ∧
    (get_speaker_gender_calls (fun s => s) (fun _ => "unknown") "" "").2 = [""] ∧
    ([""] : List String) ≠ [] := by
  refine ⟨rfl, rfl, by simp⟩

/-- C7 amended: when the biography yields no verdict and first-name
extraction yields the empty string, the resolver queries the name
classifier with the empty string and returns its normalized answer. -/
theorem c7_amended_queries_empty (human_first get_gender : String → String)
    (bio name : String)
    (hbio : guess_gender_from_bio bio = none)
    (hname : get_first_name human_first name = "") :
    get_speaker_gender_calls human_first get_gender bio name =
      (normalize_gender (get_gender ""), [""]) := by
  simp [get_speaker_gender_calls, hbio, hname]

/-- Witness for the amended C7: empty biography and empty name, with a
classifier answering andy on every input; the result is unknown and the
classifier was queried once, with the empty string. -/
theorem c7_witness :
    get_speaker_gender_calls (fun s => s) (fun _ => "andy") "" "" = ("unknown", [""]) := by
  have h := c7_amended_queries_empty (fun s => s) (fun _ => "andy") "" "" rfl rfl
  rw [h]
  decide

/-- After ensure_cached, the content is stored under the key. -/
theorem lookupCache_ensure_cached (fetch : String → String) (st : FetchState)
    (k : String) :
    lookupCache (ensure_cached fetch st k).1 k = some (ensure_cached fetch st k).2 := by
  cases h : lookupCache st k with
  | some c => simp [ensure_cached, h]
  | none =>
    have he : ensure_cached fetch st k =
        (⟨(k, fetch k) :: st.cache, st.downloads ++ [k]⟩, fetch k) := by
      unfold ensure_cached
      rw [h]
    rw [he]
    simp [lookupCache]

/-- C5: when the local file for a key already exists, ensure_cached returns
its content with the state unchanged and no download; and a second call
for the same key returns exactly what the first returned, with at most one
download in total ever performed for the key. -/
theorem c5_cached_fetch (fetch : String → String) (st : FetchState) (k : String) :
    (∀ c, lookupCache st k = some c → ensure_cached fetch st k = (st, c)) ∧
    ensure_cached fetch (ensure_cached fetch st k).1 k = ensure_cached fetch st k ∧
    (ensure_cached fetch (ensure_cached fetch st k).1 k).1.downloads.length ≤
      st.downloads.length + 1 := by
  have hhit : ∀ (st2 : FetchState) (c : String), lookupCache st2 k = some c →
      ensure_cached fetch st2 k = (st2, c) := by
    intro st2 c h
    simp [ensure_cached, h]
  have hsecond : ensure_cached fetch (ensure_cached fetch st k).1 k
      = ensure_cached fetch st k := by
    have h := lookupCache_ensure_cached fetch st k
    rw [hhit (ensure_cached fetch st k).1 (ensure_cached fetch st k).2 h]
  refine ⟨fun c h => hhit st c h, hsecond, ?_⟩
  rw [hsecond]
  cases h : lookupCache st k with
  | some c => rw [hhit st c h]; exact Nat.le_succ _
  | none => simp [ensure_cached, h]

/-- Witness for C5: a key whose file is already cached is returned as is,
the fetch function never being consulted and the download log staying
empty. -/
theorem c5_witness :
    ensure_cached (fun _ => "fresh") ⟨[("2023/html/alice.html", "saved")], []⟩
      "2023/html/alice.html"
      = (⟨[("2023/html/alice.html", "saved")], []⟩, "saved") :=
  (c5_cached_fetch (fun _ => "fresh") ⟨[("2023/html/alice.html", "saved")], []⟩
    "2023/html/alice.html").1 "saved" rfl

/-- Membership in the get_speaker_tracks fold: a name is collected exactly
when it is already in the accumulator or some line matches the track-link
regex with a key that is neither the literal test nor bofs_-prefixed, the
name being Main track when the key starts with main_track and the captured
display name otherwise. -/
theorem mem_trackFold (lines : List (Option (String × String)))
    (acc : Finset String) (t : String) :
    t ∈ lines.foldl addTrackLine acc ↔ t ∈ acc ∨ ∃ track tname,
      some (track, tname) ∈ lines ∧ track ≠ "test" ∧
      startsWithStr track "bofs_" = false ∧
      t = (if startsWithStr track "main_track" then "Main track" else tname) := by
  induction lines generalizing acc with
  | nil => simp
  | cons l rest ih =>
    rw [List.foldl_cons, ih]
    cases l with
    | none =>
      simp only [List.mem_cons, reduceCtorEq, false_or, addTrackLine]
    | some p =>
      obtain ⟨track, tname⟩ := p
      by_cases h1 : track = "test"
      · subst h1
        have hs : addTrackLine acc (some ("test", tname)) = acc := by
          simp [addTrackLine]
        rw [hs]
        constructor
        · rintro (h | ⟨tr, tn, hmem, hne, hb, ht⟩)
          · exact Or.inl h
          · exact Or.inr ⟨tr, tn, List.mem_cons_of_mem _ hmem, hne, hb, ht⟩
        · rintro (h | ⟨tr, tn, hmem, hne, hb, ht⟩)
          · exact Or.inl h
          · rcases List.mem_cons.mp hmem with heq | hmem2
            · obtain ⟨rfl, rfl⟩ := by
                simpa using heq
              exact absurd rfl hne
            · exact Or.inr ⟨tr, tn, hmem2, hne, hb, ht⟩
      · by_cases h2 : startsWithStr track "bofs_" = true
        · have hs : addTrackLine acc (some (track, tname)) = acc := by
            simp [addTrackLine, h2]
          rw [hs]
          constructor
          · rintro (h | ⟨tr, tn, hmem, hne, hb, ht⟩)
            · exact Or.inl h
            · exact Or.inr ⟨tr, tn, List.mem_cons_of_mem _ hmem, hne, hb, ht⟩
          · rintro (h | ⟨tr, tn, hmem, hne, hb, ht⟩)
            · exact Or.inl h
            · rcases List.mem_cons.mp hmem with heq | hmem2
              · obtain ⟨rfl, rfl⟩ := by
                  simpa using heq
                rw [h2] at hb
                exact absurd hb (by simp)
              · exact Or.inr ⟨tr, tn, hmem2, hne, hb, ht⟩
        · have hb2 : startsWithStr track "bofs_" = false := by
            cases h : startsWithStr track "bofs_"
            · rfl
            · exact absurd h h2
          have hs : addTrackLine acc (some (track, tname)) =
              insert (if startsWithStr track "main_track" then "Main track" else tname)
                acc := by
            simp [addTrackLine, h1, h2]
          rw [hs, Finset.mem_insert]
          constructor
          · rintro ((ht | h) | ⟨tr, tn, hmem, hne, hb, hteq⟩)
            · exact Or.inr ⟨track, tname, List.mem_cons_self _ _, h1, hb2, ht⟩
            · exact Or.inl h
            · exact Or.inr ⟨tr, tn, List.mem_cons_of_mem _ hmem, hne, hb, hteq⟩
          · rintro (h | ⟨tr, tn, hmem, hne, hb, hteq⟩)
            · exact Or.inl (Or.inr h)
            · rcases List.mem_cons.mp hmem with heq | hmem2
              · obtain ⟨rfl, rfl⟩ := by
                  simpa using heq
                exact Or.inl (Or.inl hteq)
              · exact Or.inr ⟨tr, tn, hmem2, hne, hb, hteq⟩

/-- C8: the extracted track set of a saved speaker page contains a name
exactly when some line carries a track key other than the literal test and
without the bofs_ prefix, the name being the canonical Main track for any
key starting with main_track and the captured display name otherwise; in
particular main_track_1 and main_track_2 merge into the single name Main
track while test and bofs_x contribute nothing. -/
theorem c8_track_filter :
    (∀ (lines : List (Option (String × String))) (t : String),
      t ∈ get_speaker_tracks lines ↔ ∃ track tname,
        some (track, tname) ∈ lines ∧ track ≠ "test" ∧
        startsWithStr track "bofs_" = false ∧
        t = (if startsWithStr track "main_track" then "Main track" else tname)) ∧
    get_speaker_tracks [some ("main_track_1", "K building"),
      some ("main_track_2", "Janson"), some ("test", "Test"),
      some ("bofs_a", "BOFs"), none] = {"Main track"} := by
  constructor
  · intro lines t
    rw [get_speaker_tracks, mem_trackFold]
    simp
  · decide

/-- Per-year track and gender data with distinct tracks in 2022 and 2023,
to expose which year track mode actually reads. -/
def tgEx : Nat → List (String × String) := fun y =>
  if y = 2022 then [("A", "female")]
  else if y = 2023 then [("B", "male")] else []

/-- C4 as the code behaves: show_gender_diversity_by_track ignores its year
argument and always processes the 2023 data, because the Python body calls
get_tracks_and_gender(2023) instead of get_tracks_and_gender(year). With
data in which 2022 has only track A (all female) and 2023 only track B
(all male), asking for 2022 reports track B at ratio 0, not track A at
ratio 1 as the claim requires. -/
theorem c4_hardcoded_year :
    (∀ (tg : Nat → List (String × String)) (year : Nat),
      show_gender_diversity_by_track tg year = show_gender_diversity_by_track tg 2023) ∧
    show_gender_diversity_by_track tgEx 2022 = Except.ok [((0 : ℚ), "B")] ∧
    show_gender_diversity_by_track tgEx 2022 ≠ Except.ok [((1 : ℚ), "A")] := by
  have heval : show_gender_diversity_by_track tgEx 2022
      = Except.ok [((((0 : ℕ) : ℚ)) / (((1 : ℕ) : ℚ) + ((0 : ℕ) : ℚ)), "B")] := rfl
  have hval : ((((0 : ℕ) : ℚ)) / (((1 : ℕ) : ℚ) + ((0 : ℕ) : ℚ))) = (0 : ℚ) := by
    norm_num
  have h2 : show_gender_diversity_by_track tgEx 2022 = Except.ok [((0 : ℚ), "B")] := by
    rw [heval, hval]
  refine ⟨fun tg year => rfl, h2, ?_⟩
  rw [h2]
  intro hcontra
  simp at hcontra

end Fosdem
